import Mathlib

/-!
Verification of the natural-language specification of the `a4s-test`
repository against a shallow embedding of `src/dataset/data_process.py`.

The embedding models pandas tables as Lean lists of row structures, with
`Option String` standing for string-typed cells that may hold NaN (every
CSV column is read with `dtype=str`, so a cell is either a string or NaN).
Python exceptions and early `return None` paths are modelled with `Except`.
Sorting uses a hand-rolled stable insertion sort (`pySort`) because Python
`sorted` is stable, and Python string comparison is modelled by
code-point-wise lexicographic comparison (`pyStrLe`).
-/

/-! ## Python string primitives -/

/-- Whitespace characters removed by Python `str.strip()` (ASCII subset). -/
def pyWhitespace : List Char := [' ', Char.ofNat 9, Char.ofNat 10, Char.ofNat 13, Char.ofNat 11, Char.ofNat 12]

/-- Quote characters: the argument `"'\""` of `str.strip` in the source
(single quote, double quote). -/
def pyQuoteChars : List Char := [Char.ofNat 39, Char.ofNat 34]

/-- Python `s.strip(chars)`: remove leading and trailing characters drawn
from `chars`. -/
def pyStripChars (chars : List Char) (s : String) : String :=
  String.mk (((s.data.dropWhile (fun c => c ∈ chars)).reverse.dropWhile (fun c => c ∈ chars)).reverse)

/-- Python `s.strip()` (whitespace, ASCII subset). -/
def pyStripWs (s : String) : String := pyStripChars pyWhitespace s

/-- Split a character list at every occurrence of `sep`, keeping empty
segments, as Python `str.split(sep)` does for a one-character separator. -/
def splitCharList (sep : Char) : List Char → List (List Char)
  | [] => [[]]
  | c :: cs =>
    if c = sep then [] :: splitCharList sep cs
    else
      match splitCharList sep cs with
      | [] => [[c]]
      | h :: t => (c :: h) :: t

/-- Python `s.split(sep)` for a single-character separator. -/
def pySplit (sep : Char) (s : String) : List String :=
  (splitCharList sep s.data).map String.mk

/-- Media-list parsing from `data_process.py` (used for `img_urls` and
`video_urls`): `str(x).strip('[]').split(',')` followed by the list
comprehension `[url.strip().strip("'\"") for url in urls if url.strip()]`. -/
def parse_media_list (s : String) : List String :=
  (pySplit ',' (pyStripChars ['[', ']'] s)).filterMap (fun url =>
    if (pyStripWs url).isEmpty then none
    else some (pyStripChars pyQuoteChars (pyStripWs url)))

/-- Code-point lexicographic `≤` on character lists, as Python compares
strings. -/
def strLeList : List Char → List Char → Bool
  | [], _ => true
  | _ :: _, [] => false
  | c :: cs, d :: ds =>
    if c.toNat < d.toNat then true
    else if d.toNat < c.toNat then false
    else strLeList cs ds

/-- Python string `≤` (code-point lexicographic). -/
def pyStrLe (s t : String) : Bool := strLeList s.data t.data

/-! ## Stable insertion sort (Python `sorted` is stable) -/

/-- Insert `a` into `l`, placing it before the first element `b` with
`le a b`; for elements comparing equal the inserted element stays first,
matching the stability of Python `sorted` when consumed head-first. -/
def pyInsert {α : Type} (le : α → α → Bool) (a : α) : List α → List α
  | [] => [a]
  | b :: bs => if le a b then a :: b :: bs else b :: pyInsert le a bs

/-- Stable insertion sort with a boolean `≤`. -/
def pySort {α : Type} (le : α → α → Bool) : List α → List α
  | [] => []
  | a :: as => pyInsert le a (pySort le as)

/-! ## Timestamp rendering

`pd.to_datetime(int(t), unit='s').strftime('%Y-%m-%d %H:%M:%S')` converts a
Unix epoch second count to a naive UTC date-time string. -/

/-- Zero-pad a natural number to two digits. -/
def pad2 (n : Nat) : String := if n < 10 then "0" ++ toString n else toString n

/-- Zero-pad a natural number to four digits (years). -/
def pad4 (n : Nat) : String :=
  if n < 10 then "000" ++ toString n
  else if n < 100 then "00" ++ toString n
  else if n < 1000 then "0" ++ toString n
  else toString n

/-- Convert a count of days since 1970-01-01 to a `(year, month, day)`
triple of the proleptic Gregorian calendar (civil-from-days algorithm). -/
def civilFromDays (days : Nat) : Nat × Nat × Nat :=
  let z := days + 719468
  let era := z / 146097
  let doe := z % 146097
  let yoe := (doe - doe / 1460 + doe / 36524 - doe / 146097) / 365
  let y := yoe + era * 400
  let doy := doe - (365 * yoe + yoe / 4 - yoe / 100)
  let mp := (5 * doy + 2) / 153
  let d := doy - (153 * mp + 2) / 5 + 1
  let m := if mp < 10 then mp + 3 else mp - 9
  (if m ≤ 2 then y + 1 else y, m, d)

/-- Render a Unix epoch second count as `YYYY-MM-DD HH:MM:SS`. -/
def formatEpoch (t : Nat) : String :=
  let ymd := civilFromDays (t / 86400)
  let secs := t % 86400
  pad4 ymd.1 ++ "-" ++ pad2 ymd.2.1 ++ "-" ++ pad2 ymd.2.2 ++ " " ++
    pad2 (secs / 3600) ++ ":" ++ pad2 (secs % 3600 / 60) ++ ":" ++ pad2 (secs % 60)

/-! ## Data model

Rows of the two CSV tables. Every column is read with `dtype=str`, so a
cell is a string or NaN: `Option String`, with `none` for NaN. The
`created_time` cell is kept as `Option Nat` because the source always
feeds it through `int(...)` before use. -/

structure CommentRow where
  comment_id : Option String := none
  uid : Option String := none
  article_id : Option String := none
  question_id : Option String := none
  answer_id : Option String := none
  parent_comment_id : Option String := none
  content : Option String := none
  img_urls : Option String := none
  video_urls : Option String := none
  created_time : Option Nat := none
deriving DecidableEq, Repr

structure MetaRow where
  article_id : Option String := none
  question_id : Option String := none
  answer_id : Option String := none
  title : Option String := none
  content : Option String := none
  img_urls : Option String := none
  video_urls : Option String := none
deriving DecidableEq, Repr

/-- Pandas elementwise `==` on string cells: NaN compares unequal to
everything, including NaN. -/
def pdEq (a b : Option String) : Bool :=
  match a, b with
  | some x, some y => x == y
  | _, _ => false

/-- Python `str(...)` applied to a string-or-NaN cell, as in
`.astype(str)`: NaN renders as `"nan"`. -/
def pyStr (a : Option String) : String :=
  match a with
  | some s => s
  | none => "nan"

/-! ## Batch selector (`count_users_frequency`, `save_users_history`) -/

/-- All non-NaN values of the `uid` column, in row order (`value_counts`
drops NaN). -/
def uidList (comments : List CommentRow) : List String :=
  comments.filterMap (fun r => r.uid)

/-- Distinct values in first-occurrence order, as pandas `unique` /
the index produced by `value_counts` (accumulator of already-seen
values). -/
def firstSeenAux {α : Type} [DecidableEq α] (seen : List α) : List α → List α
  | [] => []
  | a :: as => if a ∈ seen then firstSeenAux seen as else a :: firstSeenAux (a :: seen) as

/-- Distinct values in first-occurrence order. -/
def firstSeen {α : Type} [DecidableEq α] (l : List α) : List α := firstSeenAux [] l

/-- Descending-count comparison used to order `value_counts`. -/
def countDescLe (p q : String × Nat) : Bool := decide (q.2 ≤ p.2)

/-- Pandas `Series.value_counts()` on a list of strings: the distinct
values paired with their frequencies, sorted by descending frequency
(stable, ties in first-occurrence order). -/
def value_counts (l : List String) : List (String × Nat) :=
  pySort countDescLe ((firstSeen l).map (fun u => (u, l.count u)))

/-- `count_users_frequency(data)` from `data_process.py`: `value_counts`
of the uid column. -/
def count_users_frequency (comments : List CommentRow) : List (String × Nat) :=
  value_counts (uidList comments)

inductive SelectError where
  | invalidStrategy
deriving DecidableEq, Repr

/-- Linear congruential step used by the model of the fixed-seed sampler. -/
def lcgStep (x : Nat) : Nat := (x * 1103515245 + 12345) % 2147483648

/-- Draw up to `n` elements without replacement, deterministically from
the seed. -/
def sampleAux {α : Type} : Nat → Nat → List α → List α
  | 0, _, _ => []
  | _ + 1, _, [] => []
  | n + 1, s, x :: xs =>
    let i := s % (x :: xs).length
    (x :: xs).getD i x :: sampleAux n (lcgStep s) ((x :: xs).eraseIdx i)

/-- Model of `Series.sample(n=n, random_state=seed)`: a deterministic
seeded sample without replacement from the index, not weighted by the
counts. The exact permutation of the library sampler is not modelled
(library code, outside this repository); what matters to the spec is that
a fixed seed makes the selection a pure function of the input. -/
def pandasSample (l : List (String × Nat)) (n : Nat) (seed : Nat) : List (String × Nat) :=
  sampleAux (min n l.length) seed l

/-- The user-selection step of `save_users_history`
(`data_process.py` lines 420-428): frequency index of the comments
table, then `head(n)` for strategy `"top"`, a seed-42 sample for
`"random"`, and a `ValueError` otherwise. -/
def select_users (comments : List CommentRow) (n : Nat) (strategy : String) :
    Except SelectError (List String) :=
  let freq := count_users_frequency comments
  if strategy == "top" then .ok ((freq.take n).map Prod.fst)
  else if strategy == "random" then .ok ((pandasSample freq n 42).map Prod.fst)
  else .error .invalidStrategy

/-! ## History builder (`get_user_history_data_json`)

The outcomes of `get_user_history_data_json`: the two `print`-and-return
paths are `noDataForUser` and `noContentIdentifier`; `qaSplitError` is the
`ValueError` raised by unpacking `content_id.split('_')` into two names;
`sortTypeError` is the `TypeError` raised by Python when `sorted` compares
a `None` sort key with a string (or another `None`). -/

inductive BuildError where
  | noDataForUser
  | noContentIdentifier
  | qaSplitError
  | sortTypeError
deriving DecidableEq, Repr

/-- Error-propagating `mapM` over `Except`, evaluating left to right and
stopping at the first error, as a Python `for` loop over the items does. -/
def exMapM {ε α β : Type} (f : α → Except ε β) : List α → Except ε (List β)
  | [] => .ok []
  | a :: as =>
    match f a with
    | .error e => .error e
    | .ok b =>
      match exMapM f as with
      | .error e => .error e
      | .ok bs => .ok (b :: bs)

/-- The rows of the comments table whose user column equals `uid`
(`comments_data[comments_data[user_id_column] == uid]`). -/
def userCommentsOf (comments : List CommentRow) (uid : String) : List CommentRow :=
  comments.filter (fun r => pdEq r.uid (some uid))

/-- `user_comments[article_id_column].notna().any()`. -/
def hasArticles (uc : List CommentRow) : Bool :=
  uc.any (fun r => r.article_id.isSome)

/-- `user_comments[question_id_column].notna().any() and
user_comments[answer_id_column].notna().any()` (the two columns are
checked independently). -/
def hasQa (uc : List CommentRow) : Bool :=
  uc.any (fun r => r.question_id.isSome) && uc.any (fun r => r.answer_id.isSome)

/-- The composite Q&A identifier
`question_id.astype(str) + '_' + answer_id.astype(str)`. -/
def qaIdOf (r : CommentRow) : String :=
  pyStr r.question_id ++ "_" ++ pyStr r.answer_id

/-- A content identifier: a distinct `article_id` cell (possibly NaN) in
article mode, or a composite `qa_id` string in Q&A mode. -/
inductive ContentKey where
  | art : Option String → ContentKey
  | qa : String → ContentKey
deriving DecidableEq, Repr

/-- Step 3 of the builder: the distinct content identifiers of the user's
comments, in first-occurrence order, or `noContentIdentifier` when
neither addressing scheme is populated. -/
def contentKeysOf (uc : List CommentRow) : Except BuildError (List ContentKey) :=
  if hasArticles uc then .ok ((firstSeen (uc.map (fun r => r.article_id))).map ContentKey.art)
  else if hasQa uc then .ok ((firstSeen (uc.map qaIdOf)).map ContentKey.qa)
  else .error .noContentIdentifier

/-- Whether a comment row belongs to a content identifier
(`user_comments[...] == content_id`). -/
def rowMatchesKey (k : ContentKey) (r : CommentRow) : Bool :=
  match k with
  | .art a => pdEq r.article_id a
  | .qa s => qaIdOf r == s

/-- Whether a metadata row matches a content identifier: by `article_id`,
or by the `(question_id, answer_id)` pair recovered from the composite
key. -/
def metaMatchesKey (k : ContentKey) (m : MetaRow) : Bool :=
  match k with
  | .art a => pdEq m.article_id a
  | .qa s =>
    match pySplit '_' s with
    | [q, a] => pdEq m.question_id (some q) && pdEq m.answer_id (some a)
    | _ => false

/-- One reply record before sorting, as assembled in the grouping loop:
`content` with NaN repaired to `""` and stringified, `created_time`
rendered from epoch seconds (or `None`), and parsed media lists. -/
structure ReplyInfo where
  comment_id : Option String
  content : String
  created_time : Option String
  images : List String
  videos : List String
deriving DecidableEq, Repr

/-- The media list of a possibly-NaN cell: parsed if present, `[]` for
NaN (the `pd.notna(...)` guards around the parsing). -/
def mediaOf (cell : Option String) : List String :=
  match cell with
  | some s => parse_media_list s
  | none => []

/-- Build the `reply_info` record of one comment row. -/
def mkReply (r : CommentRow) : ReplyInfo :=
  { comment_id := r.comment_id
    content := r.content.getD ""
    created_time := r.created_time.map formatEpoch
    images := mediaOf r.img_urls
    videos := mediaOf r.video_urls }

/-- `str(comment_row[parent_comment_id_column]).strip()` when the cell is
populated and non-blank, else `None`. -/
def parentKeyOf (r : CommentRow) : Option String :=
  match r.parent_comment_id with
  | some p => if (pyStripWs p).isEmpty then none else some (pyStripWs p)
  | none => none

/-- The dictionary key a comment row is grouped under: its stripped
parent id, or `"root"` for top-level comments. -/
def groupKeyOf (r : CommentRow) : String :=
  (parentKeyOf r).getD "root"

/-- One value of the `comment_groups` dictionary. -/
structure GroupData where
  parent_comment_content : Option String
  replies : List ReplyInfo
deriving DecidableEq, Repr

/-- Append a reply to the (unique) existing entry with the given key,
as mutating `comment_groups[group_key]['replies']` does. -/
def addToGroup : List (String × GroupData) → String → ReplyInfo → List (String × GroupData)
  | [], _, _ => []
  | (k, gd) :: rest, key, rep =>
    if k == key then (k, { gd with replies := gd.replies ++ [rep] }) :: rest
    else (k, gd) :: addToGroup rest key rep

/-- The parent-content lookup performed when a non-root group is first
created: the first row of the full comments table whose `comment_id`
equals the parent id, its content with NaN repaired to `""`; `None` when
no row matches. -/
def parentContentOf (full : List CommentRow) (parentKey : Option String) : Option String :=
  match parentKey with
  | none => none
  | some pid =>
    match (full.filter (fun c => pdEq c.comment_id (some pid))).head? with
    | some prow => some (prow.content.getD "")
    | none => none

/-- Process one comment row of the grouping loop: append its reply to its
group, creating the group (with the parent lookup against the full
comments table) on first sight of the key. -/
def insertRow (full : List CommentRow) (groups : List (String × GroupData)) (r : CommentRow) :
    List (String × GroupData) :=
  let key := groupKeyOf r
  if groups.any (fun e => e.1 == key) then addToGroup groups key (mkReply r)
  else groups ++ [(key, { parent_comment_content := parentContentOf full (parentKeyOf r), replies := [mkReply r] })]

/-- The `comment_groups` dictionary after the grouping loop, as an
insertion-ordered association list with distinct keys. -/
def buildGroups (full : List CommentRow) (rows : List CommentRow) : List (String × GroupData) :=
  rows.foldl (insertRow full) []

/-- One reply in the output structure (the `comment_id` of `reply_info`
is dropped on output). -/
structure ReplyOut where
  content : String
  created_time : Option String
  images : List String
  videos : List String
deriving DecidableEq, Repr

/-- One output comment group: `parent_comment` is `""` for the root
group, the looked-up parent content for other groups — which is `None`
(JSON `null`) when the parent id was absent from the comments table. -/
structure CommentGroupOut where
  parent_comment : Option String
  content : List ReplyOut
deriving DecidableEq, Repr

def toReplyOut (r : ReplyInfo) : ReplyOut :=
  { content := r.content
    created_time := r.created_time
    images := r.images
    videos := r.videos }

/-- Comparison of replies by the sort key `x.get('created_time', '')`,
assuming both keys are strings. -/
def replyLe (r1 r2 : ReplyInfo) : Bool :=
  pyStrLe (r1.created_time.getD "") (r2.created_time.getD "")

/-- `sorted(replies, key=lambda x: x.get('created_time', ''))`. The key
of a reply whose `created_time` is `None` is `None` (the `.get` default
only applies to a missing key, and the key is always present), and Python
raises `TypeError` as soon as a comparison involves `None`; with at least
two elements every element takes part in some comparison, so a `None` key
among two or more replies always raises. -/
def pySortedReplies (rs : List ReplyInfo) : Except BuildError (List ReplyInfo) :=
  if rs.length ≤ 1 then .ok rs
  else if rs.any (fun r => r.created_time.isNone) then .error .sortTypeError
  else .ok (pySort replyLe rs)

/-- Convert one dictionary entry to the output group structure, sorting
its replies: `parent_comment` is `""` for the `'root'` key and the stored
(possibly `None`) parent content otherwise. -/
def finishGroup (e : String × GroupData) : Except BuildError CommentGroupOut :=
  match pySortedReplies e.2.replies with
  | .error err => .error err
  | .ok sorted =>
    .ok { parent_comment := if e.1 == "root" then some "" else e.2.parent_comment_content
          content := sorted.map toReplyOut }

/-- One element of the `result["articles"]` list. Article-mode items
populate `article_id`, `article_content` and the media lists
(`article_images` / `article_videos`); Q&A-mode items populate
`question_id`, `answer_id`, `question_content`, `answer_content` and the
media lists (`content_images` / `content_videos`). -/
structure ContentItem where
  content_type : String
  article_id : Option String := none
  question_id : Option String := none
  answer_id : Option String := none
  article_content : String := ""
  question_content : String := ""
  answer_content : String := ""
  images : List String := []
  videos : List String := []
  comments : List CommentGroupOut := []
deriving DecidableEq, Repr

/-- The grouped and reply-sorted output comment groups of one content
identifier: group the user's comments on it, then sort each group's
replies. -/
def itemGroups (full : List CommentRow) (uc : List CommentRow) (k : ContentKey) :
    Except BuildError (List CommentGroupOut) :=
  exMapM finishGroup (buildGroups full (uc.filter (rowMatchesKey k)))

/-- `meta_data[meta_data[article_id_column] == content_id]`, first row. -/
def articleMetaOf (meta : List MetaRow) (a : Option String) : Option MetaRow :=
  (meta.filter (fun m => pdEq m.article_id a)).head?

/-- The metadata lookup by `(question_id, answer_id)` pair, first row. -/
def qaMetaOf (meta : List MetaRow) (q a : String) : Option MetaRow :=
  (meta.filter (fun m => pdEq m.question_id (some q) && pdEq m.answer_id (some a))).head?

/-- Content text of the first metadata row, `""` when absent or NaN. -/
def metaContentOf (cmeta : Option MetaRow) : String :=
  match cmeta with
  | some m0 => m0.content.getD ""
  | none => ""

/-- Title (question text) of the first metadata row, `""` when absent or
NaN. -/
def metaTitleOf (cmeta : Option MetaRow) : String :=
  match cmeta with
  | some m0 => m0.title.getD ""
  | none => ""

/-- Image list of the first metadata row, `[]` when absent or NaN. -/
def metaImagesOf (cmeta : Option MetaRow) : List String :=
  match cmeta with
  | some m0 => mediaOf m0.img_urls
  | none => []

/-- Video list of the first metadata row, `[]` when absent or NaN. -/
def metaVideosOf (cmeta : Option MetaRow) : List String :=
  match cmeta with
  | some m0 => mediaOf m0.video_urls
  | none => []

/-- The loop body of step 4: build the content item of one content
identifier — metadata lookup (first matching row, empty-on-missing),
media parsing, comment grouping and reply sorting. -/
def processContent (meta : List MetaRow) (full : List CommentRow) (uc : List CommentRow)
    (k : ContentKey) : Except BuildError ContentItem :=
  match k with
  | .art a =>
    match itemGroups full uc (.art a) with
    | .error e => .error e
    | .ok gs =>
      .ok { content_type := "article"
            article_id := a
            article_content := metaContentOf (articleMetaOf meta a)
            images := metaImagesOf (articleMetaOf meta a)
            videos := metaVideosOf (articleMetaOf meta a)
            comments := gs }
  | .qa s =>
    match pySplit '_' s with
    | [q, a] =>
      match itemGroups full uc (.qa s) with
      | .error e => .error e
      | .ok gs =>
        .ok { content_type := "qa"
              question_id := some q
              answer_id := some a
              question_content := metaTitleOf (qaMetaOf meta q a)
              answer_content := metaContentOf (qaMetaOf meta q a)
              images := metaImagesOf (qaMetaOf meta q a)
              videos := metaVideosOf (qaMetaOf meta q a)
              comments := gs }
    | _ => .error .qaSplitError

/-- The sort key of step 5:
`x["content"][0].get("created_time", "") if x["content"] else ""`. -/
def groupSortKey (g : CommentGroupOut) : Option String :=
  match g.content with
  | [] => some ""
  | r :: _ => r.created_time

/-- Comparison of groups by that key, assuming both keys are strings. -/
def groupLe (g1 g2 : CommentGroupOut) : Bool :=
  pyStrLe ((groupSortKey g1).getD "") ((groupSortKey g2).getD "")

/-- Step 5 for one item: sort its comment groups by the creation time of
their first reply; as with replies, a `None` key among two or more
groups raises `TypeError`. -/
def sortItemGroups (item : ContentItem) : Except BuildError ContentItem :=
  if item.comments.length ≤ 1 then .ok item
  else if item.comments.any (fun g => (groupSortKey g).isNone) then .error .sortTypeError
  else .ok { item with comments := pySort groupLe item.comments }

/-- The history record returned (as JSON) on success. -/
structure HistoryRecord where
  uid : String
  articles : List ContentItem
deriving DecidableEq, Repr

/-- `get_user_history_data_json(meta_data, comments_data, uid)`: filter
the user's comments (empty ⇒ `noDataForUser`), choose the addressing
scheme (neither ⇒ `noContentIdentifier`), build one content item per
distinct content identifier, then sort each item's comment groups. -/
def get_user_history_data_json (meta : List MetaRow) (comments : List CommentRow) (uid : String) :
    Except BuildError HistoryRecord :=
  if (userCommentsOf comments uid).isEmpty then .error .noDataForUser
  else
    match contentKeysOf (userCommentsOf comments uid) with
    | .error e => .error e
    | .ok keys =>
      match exMapM (processContent meta comments (userCommentsOf comments uid)) keys with
      | .error e => .error e
      | .ok items =>
        match exMapM sortItemGroups items with
        | .error e => .error e
        | .ok items2 => .ok { uid := uid, articles := items2 }

/-- The spec's name for the history builder. -/
def build_history (meta : List MetaRow) (comments : List CommentRow) (uid : String) :
    Except BuildError HistoryRecord :=
  get_user_history_data_json meta comments uid

/-! ## Data and predicates used by the claim statements -/

/-- Replies compare by their rendered timestamps, both present. -/
def replyOutLe (r1 r2 : ReplyOut) : Prop :=
  ∃ s1 s2, r1.created_time = some s1 ∧ r2.created_time = some s2 ∧ pyStrLe s1 s2 = true

/-- Total number of replies stored across the groups. -/
def groupsReplySum (gs : List (String × GroupData)) : Nat :=
  (gs.map (fun e => e.2.replies.length)).sum

/-- Invariant: every non-root group stores the parent content produced by
the lookup of its own key against the full comments table. -/
def GroupsParentInv (full : List CommentRow) (gs : List (String × GroupData)) : Prop :=
  ∀ k gd, (k, gd) ∈ gs → k ≠ "root" →
    gd.parent_comment_content = parentContentOf full (some k)

/-- Parent comment row of the C5 witness: it belongs to user `"u2"`, so
it is only reachable through the full (unfiltered) table. -/
def c5parentRow : CommentRow :=
  { comment_id := some "p1", uid := some "u2", article_id := some "a1", content := some "hello" }

/-- Reply row of the C5 witness, by the target user `"u1"`. -/
def c5childRow : CommentRow :=
  { comment_id := some "c1", uid := some "u1", article_id := some "a1",
    parent_comment_id := some "p1", content := some "re", created_time := some 100 }

/-- The group the C5 witness builds. -/
def c5group : GroupData :=
  { parent_comment_content := some "hello", replies := [mkReply c5childRow] }

/-- Comments table of the C4 example: three replies in one group with
epoch timestamps 100, 50, 200. -/
def c4rows : List CommentRow :=
  [{ comment_id := some "c1", uid := some "u1", article_id := some "a1",
     content := some "x1", created_time := some 100 },
   { comment_id := some "c2", uid := some "u1", article_id := some "a1",
     content := some "x2", created_time := some 50 },
   { comment_id := some "c3", uid := some "u1", article_id := some "a1",
     content := some "x3", created_time := some 200 }]

/-- The single output group of the C4 example: replies in timestamp
order 50, 100, 200, rendered as date-time strings. -/
def c4group : CommentGroupOut :=
  { parent_comment := some ""
    content :=
      [{ content := "x2", created_time := some "1970-01-01 00:00:50", images := [], videos := [] },
       { content := "x1", created_time := some "1970-01-01 00:01:40", images := [], videos := [] },
       { content := "x3", created_time := some "1970-01-01 00:03:20", images := [], videos := [] }] }

/-- The single content item of the C4 example. -/
def c4item : ContentItem :=
  { content_type := "article", article_id := some "a1", comments := [c4group] }

/-- The record the C4 example builds. -/
def c4record : HistoryRecord := { uid := "u1", articles := [c4item] }

/-- Comments table of the C8/C9 witness: two comments by `"u1"` on
article `"a1"` (one root, one reply) and one by another user. -/
def c8rows : List CommentRow :=
  [{ comment_id := some "c1", uid := some "u1", article_id := some "a1",
     content := some "top", created_time := some 100 },
   { comment_id := some "c2", uid := some "u1", article_id := some "a1",
     parent_comment_id := some "c1", content := some "re", created_time := some 200 },
   { comment_id := some "c9", uid := some "u2", article_id := some "a1",
     content := some "other", created_time := some 300 }]

/-- The record the C8/C9 witness builds (no metadata at all). -/
def c8record : HistoryRecord :=
  { uid := "u1"
    articles :=
      [{ content_type := "article", article_id := some "a1"
         comments :=
           [{ parent_comment := some ""
              content := [{ content := "top", created_time := some "1970-01-01 00:01:40",
                            images := [], videos := [] }] },
            { parent_comment := some "top"
              content := [{ content := "re", created_time := some "1970-01-01 00:03:20",
                            images := [], videos := [] }] }] }] }

/-- Total number of reply entries across an item's comment groups. -/
def sumReplies (item : ContentItem) : Nat :=
  (item.comments.map (fun g => g.content.length)).sum

/-- A one-comment Q&A-mode table for given question and answer ids. -/
def qaRow (q a : String) : CommentRow :=
  { comment_id := some "c1", uid := some "u1", question_id := some q, answer_id := some a,
    content := some "hello" }

/-- The single output group built from `qaRow`. -/
def qaGroupOut : CommentGroupOut :=
  { parent_comment := some ""
    content := [{ content := "hello", created_time := none, images := [], videos := [] }] }

/-- The content item built from `qaRow`: the pair recovered from the
composite key. -/
def qaItem (q a : String) : ContentItem :=
  { content_type := "qa"
    question_id := some q
    answer_id := some a
    comments := [qaGroupOut] }

/-- The record built from `qaRow`. -/
def qaRecord (q a : String) : HistoryRecord :=
  { uid := "u1", articles := [qaItem q a] }

/-! ## Evaluation checks of the embedded primitives -/

example : formatEpoch 50 = "1970-01-01 00:00:50" := by decide

example : formatEpoch 100 = "1970-01-01 00:01:40" := by decide

example : formatEpoch 200 = "1970-01-01 00:03:20" := by decide

example : formatEpoch 1672574400 = "2023-01-01 12:00:00" := by decide

example : select_users [{ uid := some "a" }, { uid := some "b" }, { uid := some "b" }] 2 "top" = .ok ["b", "a"] := rfl

example : (select_users [{ uid := some "a" }, { uid := some "b" }] 1 "random").isOk = true := by decide

example : select_users [] 1 "other" = .error .invalidStrategy := rfl

example : pySort (fun a b => Nat.ble a b) [3, 1, 2] = [1, 2, 3] := by decide

example : pySplit ',' "a,,b" = ["a", "", "b"] := by decide

example : parse_media_list "[http://a.jpg, http://b.jpg]" = ["http://a.jpg", "http://b.jpg"] := by decide

example : parse_media_list "" = [] := by decide

example : parse_media_list "[]" = [] := by decide

example : pyStrLe "1970-01-01 00:00:50" "1970-01-01 00:01:40" = true := by decide

/-! ## Generic lemmas: sorting, deduplication, `exMapM` -/

theorem pyInsert_perm {α : Type} (le : α → α → Bool) (a : α) (l : List α) :
    (pyInsert le a l).Perm (a :: l) := by
  induction l with
  | nil => simp [pyInsert]
  | cons b bs ih =>
    by_cases h : le a b = true
    · rw [pyInsert, if_pos h]
    · rw [pyInsert, if_neg h]
      exact (List.Perm.cons b ih).trans (List.Perm.swap a b bs)

theorem pySort_perm {α : Type} (le : α → α → Bool) (l : List α) :
    (pySort le l).Perm l := by
  induction l with
  | nil => simp [pySort]
  | cons a as ih =>
    exact ((pyInsert_perm le a (pySort le as)).trans (List.Perm.cons a ih))

theorem length_pySort {α : Type} (le : α → α → Bool) (l : List α) :
    (pySort le l).length = l.length :=
  (pySort_perm le l).length_eq

theorem mem_pySort {α : Type} {le : α → α → Bool} {l : List α} {x : α} :
    x ∈ pySort le l ↔ x ∈ l :=
  (pySort_perm le l).mem_iff

theorem sorted_pyInsert {α : Type} {le : α → α → Bool}
    (htrans : ∀ a b c, le a b = true → le b c = true → le a c = true)
    (htot : ∀ a b, le a b = true ∨ le b a = true)
    (a : α) (l : List α) (hl : l.Pairwise (fun x y => le x y = true)) :
    (pyInsert le a l).Pairwise (fun x y => le x y = true) := by
  induction l with
  | nil => simp [pyInsert]
  | cons b bs ih =>
    rcases hl with - | ⟨hb, hbs⟩
    by_cases h : le a b = true
    · rw [pyInsert, if_pos h]
      refine List.Pairwise.cons ?_ (List.Pairwise.cons hb hbs)
      intro y hy
      rcases List.mem_cons.mp hy with rfl | hy2
      · exact h
      · exact htrans a b y h (hb y hy2)
    · have hba : le b a = true := (htot a b).resolve_left h
      rw [pyInsert, if_neg h]
      refine List.Pairwise.cons ?_ (ih hbs)
      intro y hy
      have hy2 := (pyInsert_perm le a bs).mem_iff.mp hy
      rcases List.mem_cons.mp hy2 with rfl | hy3
      · exact hba
      · exact hb y hy3

theorem sorted_pySort {α : Type} {le : α → α → Bool}
    (htrans : ∀ a b c, le a b = true → le b c = true → le a c = true)
    (htot : ∀ a b, le a b = true ∨ le b a = true)
    (l : List α) : (pySort le l).Pairwise (fun x y => le x y = true) := by
  induction l with
  | nil => simp [pySort]
  | cons a as ih => exact sorted_pyInsert htrans htot a (pySort le as) ih

theorem strLeList_total (xs ys : List Char) :
    strLeList xs ys = true ∨ strLeList ys xs = true := by
  induction xs generalizing ys with
  | nil => left; simp [strLeList]
  | cons c cs ih =>
    cases ys with
    | nil => right; simp [strLeList]
    | cons d ds =>
      simp only [strLeList]
      rcases Nat.lt_trichotomy c.toNat d.toNat with h | h | h
      · left; simp [h]
      · have h2 : ¬ c.toNat < d.toNat := by omega
        have h3 : ¬ d.toNat < c.toNat := by omega
        simpa [h2, h3] using ih ds
      · right; simp [h]

theorem strLeList_trans (xs ys zs : List Char)
    (h1 : strLeList xs ys = true) (h2 : strLeList ys zs = true) :
    strLeList xs zs = true := by
  induction xs generalizing ys zs with
  | nil => simp [strLeList]
  | cons c cs ih =>
    cases ys with
    | nil => simp [strLeList] at h1
    | cons d ds =>
      cases zs with
      | nil => simp [strLeList] at h2
      | cons e es =>
        simp only [strLeList] at h1 h2 ⊢
        by_cases hcd : c.toNat < d.toNat
        · by_cases hde : d.toNat < e.toNat
          · have : c.toNat < e.toNat := by omega
            simp [this]
          · by_cases hed : e.toNat < d.toNat
            · simp [hde, hed] at h2
            · have : c.toNat < e.toNat := by omega
              simp [this]
        · by_cases hdc : d.toNat < c.toNat
          · simp [hcd, hdc] at h1
          · by_cases hde : d.toNat < e.toNat
            · have : c.toNat < e.toNat := by omega
              simp [this]
            · by_cases hed : e.toNat < d.toNat
              · simp [hde, hed] at h2
              · have hce : ¬ c.toNat < e.toNat := by omega
                have hec : ¬ e.toNat < c.toNat := by omega
                simp only [hcd, hdc, if_neg, if_false] at h1
                simp only [hde, hed, if_neg, if_false] at h2
                simpa [hce, hec] using ih ds es h1 h2

theorem pyStrLe_total (s t : String) : pyStrLe s t = true ∨ pyStrLe t s = true :=
  strLeList_total s.data t.data

theorem pyStrLe_trans (s t u : String) (h1 : pyStrLe s t = true) (h2 : pyStrLe t u = true) :
    pyStrLe s u = true :=
  strLeList_trans s.data t.data u.data h1 h2

theorem mem_firstSeenAux {α : Type} [DecidableEq α] (l : List α) (seen : List α) (x : α) :
    x ∈ firstSeenAux seen l ↔ x ∈ l ∧ x ∉ seen := by
  induction l generalizing seen with
  | nil => simp [firstSeenAux]
  | cons a as ih =>
    simp only [firstSeenAux]
    by_cases h : a ∈ seen
    · simp only [h, if_pos]
      rw [ih]
      constructor
      · rintro ⟨h1, h2⟩
        exact ⟨List.mem_cons_of_mem a h1, h2⟩
      · rintro ⟨h1, h2⟩
        rcases List.mem_cons.mp h1 with rfl | h3
        · exact absurd h h2
        · exact ⟨h3, h2⟩
    · simp only [h, if_neg, not_false_iff, List.mem_cons]
      rw [ih]
      constructor
      · rintro (rfl | ⟨h1, h2⟩)
        · exact ⟨Or.inl rfl, h⟩
        · refine ⟨Or.inr h1, ?_⟩
          intro hx
          exact h2 (List.mem_cons_of_mem a hx)
      · rintro ⟨rfl | h1, h2⟩
        · exact Or.inl rfl
        · by_cases hxa : x = a
          · exact Or.inl hxa
          · exact Or.inr ⟨h1, fun hx => h2 ((List.mem_cons.mp hx).resolve_left hxa)⟩

theorem mem_firstSeen {α : Type} [DecidableEq α] (l : List α) (x : α) :
    x ∈ firstSeen l ↔ x ∈ l := by
  simpa [firstSeen] using mem_firstSeenAux l [] x

theorem firstSeen_ne_nil {α : Type} [DecidableEq α] {l : List α} (h : l ≠ []) :
    firstSeen l ≠ [] := by
  intro hf
  cases l with
  | nil => exact h rfl
  | cons a as =>
    have : a ∈ firstSeen (a :: as) := (mem_firstSeen _ _).mpr (List.mem_cons_self a as)
    rw [hf] at this
    exact List.not_mem_nil a this

theorem exMapM_ok_forall₂ {ε α β : Type} (f : α → Except ε β) :
    ∀ (l : List α) (out : List β), exMapM f l = .ok out →
      List.Forall₂ (fun a b => f a = .ok b) l out := by
  intro l
  induction l with
  | nil =>
    intro out h
    simp only [exMapM] at h
    cases h
    exact List.Forall₂.nil
  | cons a as ih =>
    intro out h
    simp only [exMapM] at h
    cases hfa : f a with
    | error e => rw [hfa] at h; cases h
    | ok b =>
      rw [hfa] at h
      cases hrest : exMapM f as with
      | error e => rw [hrest] at h; cases h
      | ok bs =>
        rw [hrest] at h
        cases h
        exact List.Forall₂.cons hfa (ih bs hrest)

theorem forall₂_mem_right {α β : Type} {R : α → β → Prop} {l1 : List α} {l2 : List β}
    (h : List.Forall₂ R l1 l2) : ∀ b ∈ l2, ∃ a ∈ l1, R a b := by
  induction h with
  | nil =>
    intro b hb
    cases hb
  | cons hr _ ih =>
    intro b hb
    rcases List.mem_cons.mp hb with rfl | hb2
    · exact ⟨_, List.mem_cons_self _ _, hr⟩
    · rcases ih b hb2 with ⟨a2, ha2, hra⟩
      exact ⟨a2, List.mem_cons_of_mem _ ha2, hra⟩

theorem exMapM_ok_mem {ε α β : Type} {f : α → Except ε β} {l : List α} {out : List β}
    (h : exMapM f l = .ok out) (b : β) (hb : b ∈ out) :
    ∃ a ∈ l, f a = .ok b :=
  forall₂_mem_right (exMapM_ok_forall₂ f l out h) b hb

theorem forall₂_comp {α β γ : Type} {R : α → β → Prop} {S : β → γ → Prop}
    {l1 : List α} {l2 : List β} {l3 : List γ}
    (h1 : List.Forall₂ R l1 l2) (h2 : List.Forall₂ S l2 l3) :
    List.Forall₂ (fun a c => ∃ b, R a b ∧ S b c) l1 l3 := by
  induction h1 generalizing l3 with
  | nil =>
    cases h2
    exact List.Forall₂.nil
  | cons hr _ ih =>
    cases h2 with
    | cons hs htail => exact List.Forall₂.cons ⟨_, hr, hs⟩ (ih htail)

/-! ## Lemmas about `value_counts` -/

theorem countDescLe_trans (p q r : String × Nat)
    (h1 : countDescLe p q = true) (h2 : countDescLe q r = true) : countDescLe p r = true := by
  simp only [countDescLe, decide_eq_true_eq] at h1 h2 ⊢
  omega

theorem countDescLe_total (p q : String × Nat) :
    countDescLe p q = true ∨ countDescLe q p = true := by
  simp only [countDescLe, decide_eq_true_eq]
  omega

theorem length_value_counts (l : List String) :
    (value_counts l).length = (firstSeen l).length := by
  simp [value_counts, length_pySort]

theorem mem_value_counts {l : List String} {p : String × Nat} :
    p ∈ value_counts l ↔ p.1 ∈ l ∧ p = (p.1, l.count p.1) := by
  rw [value_counts, mem_pySort, List.mem_map]
  constructor
  · rintro ⟨u, hu, rfl⟩
    exact ⟨(mem_firstSeen l u).mp hu, rfl⟩
  · rintro ⟨h1, h2⟩
    exact ⟨p.1, (mem_firstSeen l p.1).mpr h1, h2.symm⟩

theorem sorted_value_counts (l : List String) :
    (value_counts l).Pairwise (fun p q => countDescLe p q = true) :=
  sorted_pySort countDescLe_trans countDescLe_total _

/-! ## Lemmas about the history builder -/

theorem pairwise_of_length_le_one {γ : Type} {R : γ → γ → Prop} {l : List γ}
    (h : l.length ≤ 1) : l.Pairwise R := by
  cases l with
  | nil => exact List.Pairwise.nil
  | cons a as =>
    cases as with
    | nil => simp
    | cons b bs => simp at h

/-- Success of the builder decomposes into success of its three stages. -/
theorem build_ok_elim {meta : List MetaRow} {comments : List CommentRow} {uid : String}
    {rec : HistoryRecord} (h : get_user_history_data_json meta comments uid = .ok rec) :
    ∃ keys items,
      contentKeysOf (userCommentsOf comments uid) = .ok keys ∧
      exMapM (processContent meta comments (userCommentsOf comments uid)) keys = .ok items ∧
      exMapM sortItemGroups items = .ok rec.articles ∧ rec.uid = uid := by
  unfold get_user_history_data_json at h
  split at h
  · cases h
  · split at h
    next e heq => cases h
    next keys hk =>
      split at h
      next e heq => cases h
      next items hi =>
        split at h
        next e heq => cases h
        next items2 hs =>
          cases h
          exact ⟨keys, items, hk, hi, hs, rfl⟩

/-- Success of one loop iteration: the item's groups come from
`itemGroups`, and an empty metadata match leaves all content and media
fields empty. -/
theorem processContent_ok {meta : List MetaRow} {full uc : List CommentRow} {k : ContentKey}
    {item : ContentItem} (h : processContent meta full uc k = .ok item) :
    itemGroups full uc k = .ok item.comments ∧
    (meta.filter (fun m => metaMatchesKey k m) = [] →
      item.article_content = "" ∧ item.question_content = "" ∧ item.answer_content = "" ∧
      item.images = [] ∧ item.videos = []) := by
  cases k with
  | art a =>
    simp only [processContent] at h
    cases hg : itemGroups full uc (.art a) with
    | error e => rw [hg] at h; cases h
    | ok gs =>
      rw [hg] at h
      cases h
      refine ⟨rfl, ?_⟩
      intro hm
      have hma : articleMetaOf meta a = none := by
        unfold articleMetaOf
        have hmeq : meta.filter (fun m => pdEq m.article_id a) = [] := hm
        rw [hmeq]
        rfl
      simp [hma, metaContentOf, metaTitleOf, metaImagesOf, metaVideosOf]
  | qa s =>
    simp only [processContent] at h
    cases hsplit : pySplit '_' s with
    | nil => rw [hsplit] at h; cases h
    | cons q rest =>
      cases rest with
      | nil => rw [hsplit] at h; cases h
      | cons a rest2 =>
        cases rest2 with
        | cons x xs => rw [hsplit] at h; cases h
        | nil =>
          rw [hsplit] at h
          cases hg : itemGroups full uc (.qa s) with
          | error e => rw [hg] at h; cases h
          | ok gs =>
            rw [hg] at h
            cases h
            refine ⟨rfl, ?_⟩
            intro hm
            simp only [metaMatchesKey, hsplit] at hm
            have hqa : qaMetaOf meta q a = none := by
              unfold qaMetaOf
              rw [hm]
              rfl
            simp [hqa, metaContentOf, metaTitleOf, metaImagesOf, metaVideosOf]

theorem replyLe_trans (a b c : ReplyInfo)
    (h1 : replyLe a b = true) (h2 : replyLe b c = true) : replyLe a c = true :=
  pyStrLe_trans _ _ _ h1 h2

theorem replyLe_total (a b : ReplyInfo) : replyLe a b = true ∨ replyLe b a = true :=
  pyStrLe_total _ _

/-- Success of `finishGroup`: the reply count is preserved, the output
replies are pairwise ordered by their (present) rendered timestamps, a
reply with a `None` timestamp can only survive alone in its group, and
the `parent_comment` field is `""` exactly for the root key. -/
theorem finishGroup_ok {e : String × GroupData} {g : CommentGroupOut}
    (h : finishGroup e = .ok g) :
    g.content.length = e.2.replies.length ∧
    g.content.Pairwise replyOutLe ∧
    (∀ r ∈ g.content, r.created_time = none → g.content.length = 1) ∧
    g.parent_comment = (if e.1 == "root" then some "" else e.2.parent_comment_content) := by
  unfold finishGroup at h
  cases hs : pySortedReplies e.2.replies with
  | error err => rw [hs] at h; cases h
  | ok sorted =>
    rw [hs] at h
    cases h
    unfold pySortedReplies at hs
    by_cases hlen : e.2.replies.length ≤ 1
    · rw [if_pos hlen] at hs
      cases hs
      refine ⟨by simp, pairwise_of_length_le_one (by simpa using hlen), ?_, rfl⟩
      intro r hr _
      have h1 : 0 < (e.2.replies.map toReplyOut).length := List.length_pos_of_mem hr
      rw [List.length_map] at h1 ⊢
      omega
    · rw [if_neg hlen] at hs
      by_cases hnone : e.2.replies.any (fun r => r.created_time.isNone) = true
      · rw [if_pos hnone] at hs; cases hs
      · rw [if_neg hnone] at hs
        cases hs
        have hsome : ∀ r ∈ e.2.replies, r.created_time.isSome := by
          intro r hr
          rcases ho : r.created_time with - | t
          · exact absurd (List.any_eq_true.mpr ⟨r, hr, by simp [ho]⟩) hnone
          · simp
        refine ⟨by simp [length_pySort], ?_, ?_, rfl⟩
        · rw [List.pairwise_map]
          refine (sorted_pySort replyLe_trans replyLe_total e.2.replies).imp_of_mem ?_
          intro r1 r2 h1 h2 hle
          have hs1 := hsome r1 (mem_pySort.mp h1)
          have hs2 := hsome r2 (mem_pySort.mp h2)
          rcases ho1 : r1.created_time with - | t1
          · rw [ho1] at hs1; cases hs1
          · rcases ho2 : r2.created_time with - | t2
            · rw [ho2] at hs2; cases hs2
            · refine ⟨t1, t2, by simp [toReplyOut, ho1], by simp [toReplyOut, ho2], ?_⟩
              unfold replyLe at hle
              rw [ho1, ho2] at hle
              simpa using hle
        · intro r hr hnone2
          rcases List.mem_map.mp hr with ⟨r0, hr0, rfl⟩
          have := hsome r0 (mem_pySort.mp hr0)
          rw [show (toReplyOut r0).created_time = r0.created_time from rfl] at hnone2
          rw [hnone2] at this
          cases this

/-- Success of step 5 on one item: the comment groups are permuted and
every other field is unchanged. -/
theorem sortItemGroups_ok {item item2 : ContentItem} (h : sortItemGroups item = .ok item2) :
    ∃ cs, item2 = { item with comments := cs } ∧ cs.Perm item.comments := by
  unfold sortItemGroups at h
  by_cases hlen : item.comments.length ≤ 1
  · rw [if_pos hlen] at h
    cases h
    exact ⟨item.comments, by cases item; rfl, List.Perm.refl _⟩
  · rw [if_neg hlen] at h
    by_cases hnone : item.comments.any (fun g => (groupSortKey g).isNone) = true
    · rw [if_pos hnone] at h; cases h
    · rw [if_neg hnone] at h
      cases h
      exact ⟨_, rfl, pySort_perm _ _⟩

/-! ## Lemmas about the grouping fold -/

theorem addToGroup_sum {gs : List (String × GroupData)} {key : String} {rep : ReplyInfo}
    (h : gs.any (fun e => e.1 == key) = true) :
    groupsReplySum (addToGroup gs key rep) = groupsReplySum gs + 1 := by
  induction gs with
  | nil => simp at h
  | cons e rest ih =>
    cases e with
    | mk k0 gd =>
      by_cases hk : (k0 == key) = true
      · simp only [addToGroup, if_pos hk]
        simp [groupsReplySum]
        omega
      · simp only [addToGroup, if_neg hk]
        have h2 : rest.any (fun e => e.1 == key) = true := by
          rw [List.any_cons] at h
          rcases Bool.or_eq_true_iff.mp h with h3 | h3
          · exact absurd h3 hk
          · exact h3
        simp only [groupsReplySum, List.map_cons, List.sum_cons] at ih ⊢
        rw [ih h2]
        omega

theorem insertRow_sum (full : List CommentRow) (gs : List (String × GroupData)) (r : CommentRow) :
    groupsReplySum (insertRow full gs r) = groupsReplySum gs + 1 := by
  unfold insertRow
  by_cases h : gs.any (fun e => e.1 == groupKeyOf r) = true
  · rw [if_pos h]
    exact addToGroup_sum h
  · rw [if_neg h]
    simp [groupsReplySum]

theorem foldl_insertRow_sum (full : List CommentRow) (rows : List CommentRow) :
    ∀ gs : List (String × GroupData),
      groupsReplySum (rows.foldl (insertRow full) gs) = groupsReplySum gs + rows.length := by
  induction rows with
  | nil =>
    intro gs
    simp
  | cons r rs ih =>
    intro gs
    simp only [List.foldl_cons, List.length_cons]
    rw [ih, insertRow_sum]
    omega

/-- The grouping loop is a partition of the processed rows: the reply
counts of the groups sum to the number of rows. -/
theorem buildGroups_sum (full : List CommentRow) (rows : List CommentRow) :
    groupsReplySum (buildGroups full rows) = rows.length := by
  unfold buildGroups
  rw [foldl_insertRow_sum]
  simp [groupsReplySum]

theorem addToGroup_mem {gs : List (String × GroupData)} {key : String} {rep : ReplyInfo}
    {k : String} {gd : GroupData} (h : (k, gd) ∈ addToGroup gs key rep) :
    ∃ gd0, (k, gd0) ∈ gs ∧ gd.parent_comment_content = gd0.parent_comment_content := by
  induction gs with
  | nil => simp [addToGroup] at h
  | cons e rest ih =>
    cases e with
    | mk k0 gd0 =>
      by_cases hk : (k0 == key) = true
      · rw [addToGroup, if_pos hk] at h
        rcases List.mem_cons.mp h with heq | hmem
        · rw [Prod.mk.injEq] at heq
          rcases heq with ⟨rfl, rfl⟩
          exact ⟨gd0, List.mem_cons_self _ _, rfl⟩
        · exact ⟨gd, List.mem_cons_of_mem _ hmem, rfl⟩
      · rw [addToGroup, if_neg hk] at h
        rcases List.mem_cons.mp h with heq | hmem
        · rw [Prod.mk.injEq] at heq
          rcases heq with ⟨rfl, rfl⟩
          exact ⟨gd, List.mem_cons_self _ _, rfl⟩
        · rcases ih hmem with ⟨gd1, hgd1, hp⟩
          exact ⟨gd1, List.mem_cons_of_mem _ hgd1, hp⟩

theorem insertRow_parentInv {full : List CommentRow} {gs : List (String × GroupData)}
    {r : CommentRow} (h : GroupsParentInv full gs) :
    GroupsParentInv full (insertRow full gs r) := by
  unfold insertRow
  by_cases ha : gs.any (fun e => e.1 == groupKeyOf r) = true
  · rw [if_pos ha]
    intro k gd hmem hk
    rcases addToGroup_mem hmem with ⟨gd0, hgd0, hp⟩
    rw [hp]
    exact h k gd0 hgd0 hk
  · rw [if_neg ha]
    intro k gd hmem hk
    rcases List.mem_append.mp hmem with h1 | h2
    · exact h k gd h1 hk
    · rw [List.mem_singleton, Prod.mk.injEq] at h2
      rcases h2 with ⟨rfl, rfl⟩
      have hpk : parentKeyOf r = some (groupKeyOf r) := by
        unfold groupKeyOf
        cases hp : parentKeyOf r with
        | none =>
          unfold groupKeyOf at hk
          rw [hp] at hk
          exact absurd rfl hk
        | some p => rfl
      show parentContentOf full (parentKeyOf r) = parentContentOf full (some (groupKeyOf r))
      rw [hpk]

theorem buildGroups_parentInv (full : List CommentRow) (rows : List CommentRow) :
    GroupsParentInv full (buildGroups full rows) := by
  unfold buildGroups
  have hgen : ∀ (rs : List CommentRow) (gs : List (String × GroupData)),
      GroupsParentInv full gs → GroupsParentInv full (rs.foldl (insertRow full) gs) := by
    intro rs
    induction rs with
    | nil =>
      intro gs h
      exact h
    | cons r rest ih =>
      intro gs h
      exact ih _ (insertRow_parentInv h)
  refine hgen rows [] ?_
  intro k gd hmem
  cases hmem

/-- The parent lookup as a `filter`/`head?`/`map` pipeline on the full
table. -/
theorem parentContentOf_eq (full : List CommentRow) (pid : String) :
    parentContentOf full (some pid) =
      ((full.filter (fun c => pdEq c.comment_id (some pid))).head?).map
        (fun c => c.content.getD "") := by
  cases hh : (full.filter (fun c => pdEq c.comment_id (some pid))).head? with
  | none => simp [parentContentOf, hh]
  | some prow => simp [parentContentOf, hh]

theorem pdEq_some_iff {a : Option String} {u : String} : pdEq a (some u) = true ↔ a = some u := by
  cases a with
  | none => simp [pdEq]
  | some x => simp [pdEq]

/-! ## Claims -/

/-- C2: for every metadata table, every comments table and every uid such
that no row of the comments table has its user field equal to uid, the
history builder returns the `NoDataForUser` error and produces no history
record. -/
theorem claim_C2_no_data_for_user (meta : List MetaRow) (comments : List CommentRow)
    (uid : String) (h : ∀ r ∈ comments, r.uid ≠ some uid) :
    get_user_history_data_json meta comments uid = .error .noDataForUser := by
  have hf : userCommentsOf comments uid = [] := by
    refine List.filter_eq_nil_iff.mpr ?_
    intro r hr hp
    exact h r hr (pdEq_some_iff.mp hp)
  unfold get_user_history_data_json
  rw [hf]
  rfl

/-- Witness for C2 at a concrete input: a one-row comments table whose
only row belongs to another user. -/
theorem claim_C2_witness :
    get_user_history_data_json [] [{ uid := some "u2" }] "u1" = .error .noDataForUser :=
  claim_C2_no_data_for_user [] [{ uid := some "u2" }] "u1" (by decide)

/-- C3: media-list parsing strips the surrounding brackets, splits on
commas, trims whitespace and quote characters, and drops empty or
whitespace-only elements: `"[http://a.jpg, http://b.jpg]"` parses to
`["http://a.jpg", "http://b.jpg"]`, `""` and `"[]"` each parse to `[]`,
and a whitespace-only element is dropped. -/
theorem claim_C3_media_list :
    parse_media_list "[http://a.jpg, http://b.jpg]" = ["http://a.jpg", "http://b.jpg"] ∧
    parse_media_list "" = [] ∧
    parse_media_list "[]" = [] ∧
    parse_media_list "[a, , 'b']" = ["a", "b"] := by
  refine ⟨?_, ?_, ?_, ?_⟩ <;> decide

/-- C6: with the seed fixed at 42 inside `select_users`, two calls with
strategy `"random"` on the same input return the same ordered list of
uids — the selection is a pure function of the input. -/
theorem claim_C6_random_deterministic (comments : List CommentRow) (n : Nat) :
    select_users comments n "random" = select_users comments n "random" := rfl

/-- C7: for every input whose strategy is neither `"top"` nor
`"random"`, `select_users` signals `InvalidStrategy` and selects no
users. -/
theorem claim_C7_invalid_strategy (comments : List CommentRow) (n : Nat) (strategy : String)
    (h1 : strategy ≠ "top") (h2 : strategy ≠ "random") :
    select_users comments n strategy = .error .invalidStrategy := by
  have hb1 : (strategy == "top") = false := beq_eq_false_iff_ne.mpr h1
  have hb2 : (strategy == "random") = false := beq_eq_false_iff_ne.mpr h2
  simp [select_users, hb1, hb2]

/-- Witness for C7 at the concrete strategy string `"frequency"`. -/
theorem claim_C7_witness :
    select_users [] 3 "frequency" = .error .invalidStrategy :=
  claim_C7_invalid_strategy [] 3 "frequency" (by decide) (by decide)

/-- C1: for every comments table with at least one non-null uid and every
k, `select_users` with strategy `"top"` returns exactly k uids (or all
distinct uids when fewer than k exist), ordered by descending comment
frequency, and when k is positive its first element attains the maximal
frequency of the uid column (it is a mode). -/
theorem claim_C1_top_selection (comments : List CommentRow) (k : Nat)
    (h : uidList comments ≠ []) :
    ∃ l, select_users comments k "top" = .ok l ∧
      l.length = min k (firstSeen (uidList comments)).length ∧
      l.Pairwise (fun u v => (uidList comments).count v ≤ (uidList comments).count u) ∧
      (0 < k → ∃ hd, l.head? = some hd ∧
        ∀ u : String, (uidList comments).count u ≤ (uidList comments).count hd) := by
  refine ⟨((count_users_frequency comments).take k).map Prod.fst, rfl, ?_, ?_, ?_⟩
  · rw [List.length_map, List.length_take, count_users_frequency, length_value_counts]
  · have hsorted := sorted_value_counts (uidList comments)
    have htake : ((value_counts (uidList comments)).take k).Pairwise
        (fun p q => countDescLe p q = true) :=
      hsorted.sublist (List.take_sublist k _)
    rw [List.pairwise_map]
    refine htake.imp_of_mem ?_
    intro p q hp hq hle
    have hp2 := (mem_value_counts.mp (List.mem_of_mem_take hp)).2
    have hq2 := (mem_value_counts.mp (List.mem_of_mem_take hq)).2
    have hps : p.2 = (uidList comments).count p.1 := congrArg Prod.snd hp2
    have hqs : q.2 = (uidList comments).count q.1 := congrArg Prod.snd hq2
    have hle2 : q.2 ≤ p.2 := by simpa [countDescLe] using hle
    rw [hps, hqs] at hle2
    exact hle2
  · intro hk
    have hfs : firstSeen (uidList comments) ≠ [] := firstSeen_ne_nil h
    cases hvc : value_counts (uidList comments) with
    | nil =>
      have hlen : (value_counts (uidList comments)).length = (firstSeen (uidList comments)).length :=
        length_value_counts _
      rw [hvc] at hlen
      exact absurd (List.length_eq_zero.mp hlen.symm) hfs
    | cons p ps =>
      refine ⟨p.1, ?_, ?_⟩
      · rw [count_users_frequency, hvc]
        cases k with
        | zero => exact absurd hk (Nat.lt_irrefl 0)
        | succ k2 => rfl
      · intro u
        have hpmem : p ∈ value_counts (uidList comments) := by
          rw [hvc]
          exact List.mem_cons_self p ps
        have hps : p.2 = (uidList comments).count p.1 :=
          congrArg Prod.snd (mem_value_counts.mp hpmem).2
        by_cases hu : u ∈ uidList comments
        · have hm : (u, (uidList comments).count u) ∈ value_counts (uidList comments) :=
            mem_value_counts.mpr ⟨hu, rfl⟩
          rw [hvc] at hm
          rcases List.mem_cons.mp hm with heq | hmem
          · have : (uidList comments).count u = p.2 := congrArg Prod.snd heq
            omega
          · have hsorted := sorted_value_counts (uidList comments)
            rw [hvc] at hsorted
            have hcd := (List.pairwise_cons.mp hsorted).1 _ hmem
            have : (uidList comments).count u ≤ p.2 := by
              simpa [countDescLe] using hcd
            omega
        · have hz : (uidList comments).count u = 0 := List.count_eq_zero.mpr hu
          rw [hz]
          exact Nat.zero_le _

/-- Witness for C1 at a concrete three-row table whose mode is `"u2"`. -/
theorem claim_C1_witness :
    ∃ l, select_users [{ uid := some "u1" }, { uid := some "u2" }, { uid := some "u2" }] 2 "top" = .ok l ∧
      l.length = min 2 (firstSeen (uidList [{ uid := some "u1" }, { uid := some "u2" }, { uid := some "u2" }])).length ∧
      l.Pairwise (fun u v => (uidList [{ uid := some "u1" }, { uid := some "u2" }, { uid := some "u2" }]).count v ≤ (uidList [{ uid := some "u1" }, { uid := some "u2" }, { uid := some "u2" }]).count u) ∧
      (0 < 2 → ∃ hd, l.head? = some hd ∧
        ∀ u : String, (uidList [{ uid := some "u1" }, { uid := some "u2" }, { uid := some "u2" }]).count u ≤ (uidList [{ uid := some "u1" }, { uid := some "u2" }, { uid := some "u2" }]).count hd) :=
  claim_C1_top_selection [{ uid := some "u1" }, { uid := some "u2" }, { uid := some "u2" }] 2 (by decide)

/-- C5 counterexample: one comment whose `parent_comment_id` (`"p9"`)
matches no row of the comments table. The builder succeeds and the
group's `parent_comment` is `None` (JSON `null`), not the empty string
the claim asserts. -/
theorem claim_C5_counterexample :
    (get_user_history_data_json []
      [{ comment_id := some "c1", uid := some "u1", article_id := some "a1",
         parent_comment_id := some "p9", content := some "hi", created_time := some 100 }]
      "u1").map (fun rec => rec.articles.map (fun i => i.comments.map (fun g => g.parent_comment)))
      = .ok [[(none : Option String)]] ∧ (none : Option String) ≠ some "" :=
  ⟨rfl, by decide⟩

/-- C5 (amended): for every non-root comment group, the stored parent
text is the content (NaN repaired to `""`) of the first comment whose
`comment_id` equals the group key, looked up in the full table passed to
the grouping fold — `get_user_history_data_json` passes the unfiltered
comments table there — and it is `None` (not `""`) when no such comment
exists. -/
theorem claim_C5_parent_lookup (full rows : List CommentRow) (k : String) (gd : GroupData)
    (hmem : (k, gd) ∈ buildGroups full rows) (hk : k ≠ "root") :
    gd.parent_comment_content =
      ((full.filter (fun c => pdEq c.comment_id (some k))).head?).map
        (fun c => c.content.getD "") := by
  rw [← parentContentOf_eq]
  exact buildGroups_parentInv full rows k gd hmem hk

/-- Witness for C5: the parent written by another user is found through
the full table. -/
theorem claim_C5_witness :
    c5group.parent_comment_content =
      (([c5parentRow, c5childRow].filter (fun c => pdEq c.comment_id (some "p1"))).head?).map
        (fun c => c.content.getD "") :=
  claim_C5_parent_lookup [c5parentRow, c5childRow] [c5childRow] "p1" c5group (by decide) (by decide)

/-- C4 counterexample: a comment group holding one reply with a null
timestamp and one with timestamp 100. Python raises `TypeError` when
`sorted` compares the `None` key, so the builder produces an error, not a
record with the null-timestamp reply first. -/
theorem claim_C4_counterexample :
    get_user_history_data_json []
      [{ comment_id := some "c1", uid := some "u1", article_id := some "a1", created_time := none },
       { comment_id := some "c2", uid := some "u1", article_id := some "a1", created_time := some 100 }]
      "u1" = .error .sortTypeError := rfl

/-- C4 (amended): in every produced history record, the replies of every
comment group are pairwise ordered by their rendered
`YYYY-MM-DD HH:MM:SS` timestamps — in particular epoch timestamps
100, 50, 200 come out in the order 50, 100, 200 as formatted strings —
and a reply with a null timestamp can only appear as the sole reply of
its group, because a group combining a null timestamp with any other
reply makes the builder raise `TypeError` instead of sorting nulls
first. -/
theorem claim_C4_reply_order :
    (∀ (meta : List MetaRow) (comments : List CommentRow) (uid : String) (rec : HistoryRecord),
      get_user_history_data_json meta comments uid = .ok rec →
      ∀ item ∈ rec.articles, ∀ g ∈ item.comments,
        g.content.Pairwise replyOutLe ∧
        (∀ r ∈ g.content, r.created_time = none → g.content.length = 1)) ∧
    get_user_history_data_json [] c4rows "u1" = .ok c4record := by
  constructor
  · intro meta comments uid rec hok item hitem g hg
    rcases build_ok_elim hok with ⟨keys, items, -, hi, hs, -⟩
    rcases exMapM_ok_mem hs item hitem with ⟨item0, hitem0, hsort⟩
    rcases sortItemGroups_ok hsort with ⟨cs, rfl, hperm⟩
    have hg0 : g ∈ item0.comments := hperm.mem_iff.mp hg
    rcases exMapM_ok_mem hi item0 hitem0 with ⟨k0, -, hproc⟩
    rcases processContent_ok hproc with ⟨hgroups, -⟩
    unfold itemGroups at hgroups
    rcases exMapM_ok_mem hgroups g hg0 with ⟨e, -, hfin⟩
    rcases finishGroup_ok hfin with ⟨-, hpair, hsingle, -⟩
    exact ⟨hpair, hsingle⟩
  · rfl

/-- Witness for C4: the general part applied to the concrete 100/50/200
example. -/
theorem claim_C4_witness :
    c4group.content.Pairwise replyOutLe ∧
    (∀ r ∈ c4group.content, r.created_time = none → c4group.content.length = 1) :=
  claim_C4_reply_order.1 [] c4rows "u1" c4record rfl c4item (by decide) c4group (by decide)

/-- C8: whenever the builder succeeds, every content item whose content
identifier matches no row of the metadata table has empty content text
(all three text fields) and empty image and video lists — missing
metadata degrades gracefully instead of failing. -/
theorem claim_C8_missing_metadata (meta : List MetaRow) (comments : List CommentRow)
    (uid : String) (rec : HistoryRecord) (keys : List ContentKey)
    (hok : get_user_history_data_json meta comments uid = .ok rec)
    (hkeys : contentKeysOf (userCommentsOf comments uid) = .ok keys) :
    List.Forall₂ (fun k item =>
      meta.filter (fun m => metaMatchesKey k m) = [] →
      item.article_content = "" ∧ item.question_content = "" ∧ item.answer_content = "" ∧
      item.images = [] ∧ item.videos = []) keys rec.articles := by
  rcases build_ok_elim hok with ⟨keys2, items, hk2, hi, hs, -⟩
  rw [hkeys] at hk2
  cases hk2
  refine (forall₂_comp (exMapM_ok_forall₂ _ _ _ hi) (exMapM_ok_forall₂ _ _ _ hs)).imp ?_
  rintro k item ⟨item0, hproc, hsort⟩ hmeta
  rcases processContent_ok hproc with ⟨-, hempty⟩
  rcases sortItemGroups_ok hsort with ⟨cs, rfl, -⟩
  exact hempty hmeta

/-- Witness for C8: with an empty metadata table the builder still
succeeds and the item's text and media fields are empty. -/
theorem claim_C8_witness :
    List.Forall₂ (fun k item =>
      ([] : List MetaRow).filter (fun m => metaMatchesKey k m) = [] →
      item.article_content = "" ∧ item.question_content = "" ∧ item.answer_content = "" ∧
      item.images = [] ∧ item.videos = []) [ContentKey.art (some "a1")] c8record.articles :=
  claim_C8_missing_metadata [] c8rows "u1" c8record [ContentKey.art (some "a1")] rfl rfl

theorem forall₂_map_sum {α β : Type} {f : α → Nat} {g : β → Nat} {l1 : List α} {l2 : List β}
    (h : List.Forall₂ (fun a b => g b = f a) l1 l2) :
    (l2.map g).sum = (l1.map f).sum := by
  induction h with
  | nil => rfl
  | cons hr _ ih => simp [hr, ih]

/-- C9: whenever the builder succeeds, the grouping is a partition: for
each content item, the total number of reply entries across its comment
groups equals the number of the user's comment rows matching that content
identifier. -/
theorem claim_C9_partition (meta : List MetaRow) (comments : List CommentRow)
    (uid : String) (rec : HistoryRecord) (keys : List ContentKey)
    (hok : get_user_history_data_json meta comments uid = .ok rec)
    (hkeys : contentKeysOf (userCommentsOf comments uid) = .ok keys) :
    List.Forall₂ (fun k item =>
      sumReplies item = ((userCommentsOf comments uid).filter (rowMatchesKey k)).length)
      keys rec.articles := by
  rcases build_ok_elim hok with ⟨keys2, items, hk2, hi, hs, -⟩
  rw [hkeys] at hk2
  cases hk2
  refine (forall₂_comp (exMapM_ok_forall₂ _ _ _ hi) (exMapM_ok_forall₂ _ _ _ hs)).imp ?_
  rintro k item ⟨item0, hproc, hsort⟩
  rcases processContent_ok hproc with ⟨hgroups, -⟩
  rcases sortItemGroups_ok hsort with ⟨cs, rfl, hperm⟩
  unfold itemGroups at hgroups
  have hsum1 : sumReplies { item0 with comments := cs } =
      (item0.comments.map (fun g => g.content.length)).sum := by
    unfold sumReplies
    exact List.Perm.sum_eq (hperm.map _)
  have hfin := (exMapM_ok_forall₂ _ _ _ hgroups).imp
    (fun e g hr => (finishGroup_ok hr).1)
  have hsum2 : (item0.comments.map (fun g => g.content.length)).sum =
      groupsReplySum (buildGroups comments ((userCommentsOf comments uid).filter (rowMatchesKey k))) :=
    forall₂_map_sum hfin
  rw [hsum1, hsum2, buildGroups_sum]

/-- Witness for C9 at the concrete table of `c8rows`: the single item
holds two reply entries, matching the two rows of user `"u1"` on article
`"a1"`. -/
theorem claim_C9_witness :
    List.Forall₂ (fun k item =>
      sumReplies item = ((userCommentsOf c8rows "u1").filter (rowMatchesKey k)).length)
      [ContentKey.art (some "a1")] c8record.articles :=
  claim_C9_partition [] c8rows "u1" c8record [ContentKey.art (some "a1")] rfl rfl

/-! ## Lemmas about `pySplit` for the Q&A composite key -/

theorem splitCharList_all_not_mem {sep : Char} {l : List Char} (h : sep ∉ l) :
    splitCharList sep l = [l] := by
  induction l with
  | nil => rfl
  | cons c cs ih =>
    have hc : ¬ c = sep := fun hceq => h (hceq ▸ List.mem_cons_self c cs)
    have hcs : sep ∉ cs := fun hm => h (List.mem_cons_of_mem c hm)
    rw [splitCharList, if_neg hc, ih hcs]

theorem splitCharList_append {sep : Char} {l1 : List Char} (h : sep ∉ l1) (l2 : List Char) :
    splitCharList sep (l1 ++ sep :: l2) = l1 :: splitCharList sep l2 := by
  induction l1 with
  | nil =>
    rw [List.nil_append, splitCharList, if_pos rfl]
  | cons c cs ih =>
    have hc : ¬ c = sep := fun hceq => h (hceq ▸ List.mem_cons_self c cs)
    have hcs : sep ∉ cs := fun hm => h (List.mem_cons_of_mem c hm)
    rw [List.cons_append, splitCharList, if_neg hc, ih hcs]

theorem splitCharList_length {sep : Char} (l : List Char) :
    (splitCharList sep l).length = l.count sep + 1 := by
  induction l with
  | nil => simp [splitCharList]
  | cons c cs ih =>
    by_cases hc : c = sep
    · subst hc
      rw [splitCharList, if_pos rfl, List.length_cons, ih, List.count_cons_self]
    · cases hsp : splitCharList sep cs with
      | nil =>
        rw [hsp] at ih
        simp at ih
      | cons hh tt =>
        rw [splitCharList, if_neg hc, hsp, List.length_cons]
        rw [hsp] at ih
        rw [List.length_cons] at ih
        have hbc : (c == sep) = false := beq_eq_false_iff_ne.mpr hc
        rw [List.count_cons, hbc]
        simp only [Bool.false_eq_true, if_false]
        omega

theorem pySplit_length (sep : Char) (s : String) :
    (pySplit sep s).length = s.data.count sep + 1 := by
  unfold pySplit
  rw [List.length_map, splitCharList_length]

/-- Recovery of the pair from the composite key when neither id contains
an underscore. -/
theorem pySplit_underscore (q a : String) (hq : ('_' : Char) ∉ q.data)
    (ha : ('_' : Char) ∉ a.data) :
    pySplit '_' (q ++ "_" ++ a) = [q, a] := by
  have hdata : (q ++ "_" ++ a).data = q.data ++ '_' :: a.data := by
    simp [String.data_append]
  unfold pySplit
  rw [hdata, splitCharList_append hq, splitCharList_all_not_mem ha]
  rfl

theorem qa_build_ok (q a : String) (hq : ('_' : Char) ∉ q.data) (ha : ('_' : Char) ∉ a.data) :
    get_user_history_data_json [] [qaRow q a] "u1" = .ok (qaRecord q a) := by
  have huc : userCommentsOf [qaRow q a] "u1" = [qaRow q a] := by
    simp [userCommentsOf, qaRow, pdEq]
  have hkeys : contentKeysOf [qaRow q a] = .ok [ContentKey.qa (q ++ "_" ++ a)] := by
    simp [contentKeysOf, hasArticles, hasQa, qaRow, firstSeen, firstSeenAux, qaIdOf, pyStr]
  have hproc : processContent [] [qaRow q a] [qaRow q a] (ContentKey.qa (q ++ "_" ++ a)) =
      .ok (qaItem q a) := by
    simp only [processContent, pySplit_underscore q a hq ha]
    simp [itemGroups, buildGroups, insertRow, groupKeyOf, parentKeyOf, qaRow, mkReply, mediaOf,
      parentContentOf, exMapM, finishGroup, pySortedReplies, qaMetaOf, metaContentOf, metaTitleOf,
      metaImagesOf, metaVideosOf, rowMatchesKey, qaIdOf, pyStr, toReplyOut, addToGroup,
      qaItem, qaGroupOut]
  unfold get_user_history_data_json
  rw [huc, hkeys]
  simp only [hproc, exMapM, sortItemGroups]
  simp [List.isEmpty, qaItem, qaRecord]

theorem qa_build_err (q a : String) (h : ('_' : Char) ∈ q.data ∨ ('_' : Char) ∈ a.data) :
    3 ≤ (pySplit '_' (q ++ "_" ++ a)).length ∧
    get_user_history_data_json [] [qaRow q a] "u1" = .error .qaSplitError := by
  have huc : userCommentsOf [qaRow q a] "u1" = [qaRow q a] := by
    simp [userCommentsOf, qaRow, pdEq]
  have hkeys : contentKeysOf [qaRow q a] = .ok [ContentKey.qa (q ++ "_" ++ a)] := by
    simp [contentKeysOf, hasArticles, hasQa, qaRow, firstSeen, firstSeenAux, qaIdOf, pyStr]
  have hlen : 3 ≤ (pySplit '_' (q ++ "_" ++ a)).length := by
    rw [pySplit_length]
    have hdata : (q ++ "_" ++ a).data = q.data ++ '_' :: a.data := by
      simp [String.data_append]
    rw [hdata, List.count_append, List.count_cons_self]
    rcases h with h | h
    · have hpos := List.count_pos_iff.mpr h
      omega
    · have hpos := List.count_pos_iff.mpr h
      omega
  refine ⟨hlen, ?_⟩
  unfold get_user_history_data_json
  rw [huc, hkeys]
  rcases hsp : pySplit '_' (q ++ "_" ++ a) with - | ⟨x, rest1⟩
  · rw [hsp] at hlen
    simp at hlen
  · rcases rest1 with - | ⟨y, rest2⟩
    · rw [hsp] at hlen
      simp at hlen
    · rcases rest2 with - | ⟨z, rest3⟩
      · rw [hsp] at hlen
        simp at hlen
      · simp only [exMapM, processContent, hsp]
        simp [List.isEmpty]

/-- C10: the composite Q&A content id is `question_id + "_" + answer_id`
and is recovered by splitting on `"_"`. When neither id contains an
underscore the split returns exactly the original pair and the builder
returns a record whose item carries that pair; when either id contains an
underscore the split yields more than two parts and the builder raises
(the `ValueError` of unpacking the split) instead of returning a
record. -/
theorem claim_C10_qa_composite :
    (∀ q a : String, ('_' : Char) ∉ q.data → ('_' : Char) ∉ a.data →
      pySplit '_' (q ++ "_" ++ a) = [q, a] ∧
      get_user_history_data_json [] [qaRow q a] "u1" = .ok (qaRecord q a) ∧
      (qaRecord q a).articles.map (fun i => (i.question_id, i.answer_id)) = [(some q, some a)]) ∧
    (∀ q a : String, ('_' : Char) ∈ q.data ∨ ('_' : Char) ∈ a.data →
      3 ≤ (pySplit '_' (q ++ "_" ++ a)).length ∧
      get_user_history_data_json [] [qaRow q a] "u1" = .error .qaSplitError) :=
  ⟨fun q a hq ha => ⟨pySplit_underscore q a hq ha, qa_build_ok q a hq ha, rfl⟩,
   fun q a h => qa_build_err q a h⟩

/-- Witness for C10: the underscore-free ids `"q1"`, `"a7"` round-trip
and build a record; the id `"x_y"` makes the builder raise. -/
theorem claim_C10_witness :
    (pySplit '_' ("q1" ++ "_" ++ "a7") = ["q1", "a7"] ∧
     get_user_history_data_json [] [qaRow "q1" "a7"] "u1" = .ok (qaRecord "q1" "a7") ∧
     (qaRecord "q1" "a7").articles.map (fun i => (i.question_id, i.answer_id)) =
       [(some "q1", some "a7")]) ∧
    (3 ≤ (pySplit '_' ("x_y" ++ "_" ++ "a7")).length ∧
     get_user_history_data_json [] [qaRow "x_y" "a7"] "u1" = .error .qaSplitError) :=
  ⟨claim_C10_qa_composite.1 "q1" "a7" (by decide) (by decide),
   claim_C10_qa_composite.2 "x_y" "a7" (Or.inl (by decide))⟩
